import Mathlib

/-!
Verification development for the tk-ai-extension kernel-execution and
async-coordination core. Each definition is a shallow embedding of a
function in the Python source; theorems settle the spec claims against
these definitions.
-/

namespace TkAi

/-! ## Output events and kernel messages

Shallow embedding of the output dicts built by the `_execute_code`
collectors in `execute_cell.py`, `execute_cell_async.py` and
`execute_all_cells.py`, and of the IOPub / shell messages they consume.
MIME bundles are modelled as association lists of strings.
-/

/-- One collected output dict (`output_type` tag plus payload), as appended
to the `outputs` list by the IOPub routing code. -/
inductive Output where
  | stream (name text : String)
  | executeResult (data : List (String × String)) (executionCount : Option Nat)
  | displayData (data : List (String × String))
  | error (ename evalue : String) (traceback : List String)
deriving DecidableEq

/-- Whether an output dict has `output_type == "error"` (the check used by
`execute_all_cells` via `any(o.get("output_type") == "error" ...)`). -/
def Output.isError : Output → Bool
  | .error _ _ _ => true
  | _ => false

/-- The traceback list of an error output (empty for other outputs). -/
def Output.trace : Output → List String
  | .error _ _ tb => tb
  | _ => []

/-- One IOPub message kind relevant to the collectors (`msg_type` plus
content). `status` messages are received but never collected. -/
inductive IOPubMsg where
  | stream (name text : String)
  | executeResult (data : List (String × String)) (executionCount : Option Nat)
  | displayData (data : List (String × String))
  | error (ename evalue : String) (traceback : List String)
  | status (executionState : String)
deriving DecidableEq

/-- Whether an IOPub message has `msg_type == "error"`. -/
def IOPubMsg.isError : IOPubMsg → Bool
  | .error _ _ _ => true
  | _ => false

/-- The traceback carried by an IOPub error message (empty otherwise). -/
def IOPubMsg.tracebackOf : IOPubMsg → List String
  | .error _ _ tb => tb
  | _ => []

/-- The IOPub routing switch of `_execute_code`: each collected message
kind appends one output dict; `status` (and any other kind) appends none. -/
def routeMsg : IOPubMsg → List Output
  | .stream name text => [.stream name text]
  | .executeResult data cnt => [.executeResult data cnt]
  | .displayData data => [.displayData data]
  | .error e v tb => [.error e v tb]
  | .status _ => []

/-- The `execution_count` a message contributes (`content.get("execution_count")`
of an `execute_result`; no other IOPub kind is consulted). -/
def msgSeq : IOPubMsg → Option Nat
  | .executeResult _ cnt => cnt
  | _ => none

/-- The output view of an IOPub error message (used to relate collected
error outputs back to the messages that produced them). -/
def errToOutput : IOPubMsg → Output
  | .error e v tb => .error e v tb
  | _ => .stream "" ""

/-- One event observed by the poll loop, in arrival order: an IOPub or
shell message (tagged with whether its `parent_header.msg_id` matches the
request), the overall deadline passing (`remaining_ms <= 0`), or the
post-reply grace window expiring. -/
inductive KernelEvent where
  | iopub (matched : Bool) (msg : IOPubMsg)
  | shellReply (matched : Bool) (executionCount : Option Nat)
  | timeoutExpired
  | graceExpired
deriving DecidableEq

/-! ## Synchronous `_execute_code` (execute_cell.py)

The poll loop of `ExecuteCellTool._execute_code`. Its Python return type
is dynamically inconsistent: the normal path returns the tuple
`(execution_count, outputs)`, the timeout path returns a bare one-element
list, and a missing `execution_count` raises `RuntimeError`. The
`ExecCodeReturn` union captures all three shapes faithfully.
-/

/-- The dynamically-typed return value of `ExecuteCellTool._execute_code`. -/
inductive ExecCodeReturn where
  | tuple (executionCount : Nat) (outputs : List Output)
  | bareList (outputs : List Output)
  | raised (msg : String)
deriving DecidableEq

/-- The single output dict built by the timeout branch
(`[{"output_type": "stream", "name": "stderr", "text": ...}]`). -/
def timeoutOutput (timeout : Nat) : Output :=
  .stream "stderr" ("[TIMEOUT: Code execution exceeded " ++ toString timeout ++ " seconds]")

/-- Loop exit of the sync `_execute_code`: `stop_channels` then
`raise RuntimeError` when no `execution_count` was captured, else return
the `(execution_count, outputs)` tuple. -/
def finalizeSync : Option Nat → List Output → ExecCodeReturn
  | some n, outs => .tuple n outs
  | none, _ => .raised "Kernel did not return execution_count in shell reply"

/-- The poll loop of `ExecuteCellTool._execute_code` over the arrival-order
event trace. State: collected `outputs`, captured `execution_count`
(filled at most once, from an `execute_result` or the shell reply), and
the `execution_done` flag. The timeout check fires even during the grace
window, exactly as in the source. -/
def pollLoopSync (timeout : Nat) : List KernelEvent → List Output → Option Nat → Bool → ExecCodeReturn
  | [], outs, cnt, _ => finalizeSync cnt outs
  | .timeoutExpired :: _, _, _, _ => .bareList [timeoutOutput timeout]
  | .graceExpired :: rest, outs, cnt, done =>
      if done then finalizeSync cnt outs else pollLoopSync timeout rest outs cnt done
  | .iopub m msg :: rest, outs, cnt, done =>
      if m then pollLoopSync timeout rest (outs ++ routeMsg msg) (cnt <|> msgSeq msg) done
      else pollLoopSync timeout rest outs cnt done
  | .shellReply m rc :: rest, outs, cnt, done =>
      if m then pollLoopSync timeout rest outs (cnt <|> rc) true
      else pollLoopSync timeout rest outs cnt done

/-- The caller's `execution_count, outputs = await self._execute_code(...)`
tuple unpack: a bare list (the timeout branch always yields one element)
raises `ValueError`, a raised exception propagates, a tuple binds. -/
def tupleUnpack : ExecCodeReturn → Except String (Nat × List Output)
  | .tuple n outs => .ok (n, outs)
  | .bareList outs =>
      .error ("not enough values to unpack (expected 2, got " ++ toString outs.length ++ ")")
  | .raised msg => .error msg

/-! ## Notebook cells and write-back -/

/-- A notebook cell as read and written through the YDoc: type, joined
source, `execution_count`, outputs. -/
structure Cell where
  cellType : String
  source : String
  executionCount : Option Nat
  outputs : List Output
deriving DecidableEq

/-- The uniform tool envelope (`{"success": ..., "error": ...}`). -/
structure ToolEnvelope where
  success : Bool
  error : Option String
deriving DecidableEq

/-- The YDoc transaction of the sync/async single-cell tools: set the
cell's `execution_count`, clear its outputs, append the new ones. -/
def setCellExec : List Cell → Nat → Option Nat → List Output → List Cell
  | [], _, _, _ => []
  | c :: rest, 0, n, outs => { c with executionCount := n, outputs := outs } :: rest
  | c :: rest, i + 1, n, outs => c :: setCellExec rest i n outs

/-- The core of `ExecuteCellTool.execute` after validation: run
`_execute_code`, on tuple return write the kernel's `execution_count` and
the outputs into the cell and answer success; any exception (including
the `ValueError` from unpacking the timeout branch's bare list and the
`RuntimeError` for a missing counter) is caught by the outer handler and
answered as a generic error envelope. -/
def executeCellRun (timeout : Nat) (nb : List Cell) (i : Nat) (tr : List KernelEvent) :
    List Cell × ToolEnvelope :=
  match tupleUnpack (pollLoopSync timeout tr [] none false) with
  | .ok (n, outs) => (setCellExec nb i (some n) outs, ⟨true, none⟩)
  | .error msg => (nb, ⟨false, some msg⟩)

/-! ## Async `_execute_code` and background task (execute_cell_async.py)

`ExecuteCellAsyncTool._execute_code` is the same collector without the
timeout mechanism; it genuinely returns `(execution_count, outputs)` or
raises, so its embedding can use `Except`.
-/

/-- Loop exit of the async `_execute_code`. -/
def finalizeAsync : Option Nat → List Output → Except String (Nat × List Output)
  | some n, outs => .ok (n, outs)
  | none, _ => .error "Kernel did not return execution_count in shell reply"

/-- The poll loop of `ExecuteCellAsyncTool._execute_code`: identical IOPub
routing and count capture, no deadline check (a `timeoutExpired` event
cannot fire because no deadline exists; it is skipped). -/
def pollLoopAsync : List KernelEvent → List Output → Option Nat → Bool → Except String (Nat × List Output)
  | [], outs, cnt, _ => finalizeAsync cnt outs
  | .timeoutExpired :: rest, outs, cnt, done => pollLoopAsync rest outs cnt done
  | .graceExpired :: rest, outs, cnt, done =>
      if done then finalizeAsync cnt outs else pollLoopAsync rest outs cnt done
  | .iopub m msg :: rest, outs, cnt, done =>
      if m then pollLoopAsync rest (outs ++ routeMsg msg) (cnt <|> msgSeq msg) done
      else pollLoopAsync rest outs cnt done
  | .shellReply m rc :: rest, outs, cnt, done =>
      if m then pollLoopAsync rest outs (cnt <|> rc) true
      else pollLoopAsync rest outs cnt done

/-- One entry of the `_async_executions` registry. -/
structure AsyncEntry where
  status : String
  outputs : List Output
  cellIndex : Nat
  error : Option String
deriving DecidableEq

/-- The entry registered by `ExecuteCellAsyncTool.execute` before spawning
the background task. -/
def initAsyncEntry (i : Nat) : AsyncEntry :=
  { status := "running", outputs := [], cellIndex := i, error := none }

/-- `ExecuteCellAsyncTool._execute_async`: run the collector; on normal
return write the kernel's count and the outputs into the YDoc cell and
mark the entry `"completed"` (whatever the outputs contain); on an
exception mark it `"error"` with the message. -/
def executeAsyncTask (tr : List KernelEvent) (nb : List Cell) (entry : AsyncEntry) :
    List Cell × AsyncEntry :=
  match pollLoopAsync tr [] none false with
  | .ok (n, outs) =>
      (setCellExec nb entry.cellIndex (some n) outs,
       { entry with status := "completed", outputs := outs })
  | .error msg =>
      (nb, { entry with status := "error", error := some msg })

/-- A trace in which the kernel sends the given matching IOPub messages,
then the matching shell reply carrying counter `n`, then the grace window
expires. -/
def asyncTrace (msgs : List IOPubMsg) (n : Nat) : List KernelEvent :=
  msgs.map (KernelEvent.iopub true) ++ [KernelEvent.shellReply true (some n), KernelEvent.graceExpired]

/-! ## Batch execution (execute_all_cells.py) -/

/-- The `ExecuteAllCellsTool._execute_code` collector: same routing, but
it never reads any `execution_count` (neither from `execute_result` nor
from the shell reply) and returns the bare output list. -/
def pollLoopAll : List KernelEvent → List Output → Bool → List Output
  | [], outs, _ => outs
  | .timeoutExpired :: rest, outs, done => pollLoopAll rest outs done
  | .graceExpired :: rest, outs, done =>
      if done then outs else pollLoopAll rest outs done
  | .iopub m msg :: rest, outs, done =>
      if m then pollLoopAll rest (outs ++ routeMsg msg) done
      else pollLoopAll rest outs done
  | .shellReply m _ :: rest, outs, done =>
      if m then pollLoopAll rest outs true
      else pollLoopAll rest outs done

/-- The local counter computation of `_execute_all_async`: the maximum
truthy `execution_count` over the notebook's code cells (Python truthiness
skips both `None` and `0`). -/
def maxExistingCount (nb : List Cell) : Nat :=
  nb.foldl
    (fun m c =>
      if c.cellType = "code" then
        match c.executionCount with
        | some k => if k = 0 then m else max m k
        | none => m
      else m)
    0

/-- The per-unit YDoc write of `_execute_all_async`: the written
`execution_count` is `max_count + 1`, computed from the notebook itself,
never from the kernel's reply. -/
def updateCellBatch (nb : List Cell) (idx : Nat) (outs : List Output) : List Cell :=
  setCellExec nb idx (some (maxExistingCount nb + 1)) outs

/-- One entry of the `_async_executions_all` registry. -/
structure BatchState where
  status : String
  currentCellIndex : Option Nat
  totalCells : Nat
  completedCells : Nat
  failedCellIndex : Option Nat
  error : Option String
  results : List (Nat × Bool × List Output)
deriving DecidableEq

/-- The entry registered by `ExecuteAllCellsTool.execute` before the
background loop starts. -/
def initBatchState (total : Nat) : BatchState :=
  { status := "running", currentCellIndex := none, totalCells := total,
    completedCells := 0, failedCellIndex := none, error := none, results := [] }

/-- What running one code unit against the kernel produced: the collected
output list, or an exception escaping `_execute_code` / the YDoc update. -/
inductive UnitOutcome where
  | ok (outs : List Output)
  | exn (msg : String)
deriving DecidableEq

/-- The sequential loop of `ExecuteAllCellsTool._execute_all_async` over
`code_cells`, each unit paired with its outcome. Returns the final
notebook, the final registry entry, and the list of cell indices actually
submitted to the kernel. On an error output: append the result, increment
`completed_cells`, mark `"error"`, set `failed_cell_index`, stop. On an
exception: mark `"error"` and stop without appending. -/
def runBatchUnits : List (Nat × UnitOutcome) → List Cell → BatchState →
    List Cell × BatchState × List Nat
  | [], nb, st =>
      (nb, { st with status := "completed", currentCellIndex := none }, [])
  | (idx, outcome) :: rest, nb, st =>
      let st₁ := { st with currentCellIndex := some idx }
      match outcome with
      | .exn msg =>
          (nb, { st₁ with status := "error", failedCellIndex := some idx, error := some msg },
           [idx])
      | .ok outs =>
          let nb₁ := updateCellBatch nb idx outs
          let hasErr := outs.any Output.isError
          let st₂ :=
            { st₁ with
              results := st₁.results ++ [(idx, !hasErr, outs)]
              completedCells := st₁.completedCells + 1 }
          if hasErr then
            (nb₁, { st₂ with status := "error", failedCellIndex := some idx,
                             error := some "Cell execution failed with error" },
             [idx])
          else
            match runBatchUnits rest nb₁ st₂ with
            | (nb₂, st₃, subs) => (nb₂, st₃, idx :: subs)

/-- Python's `source.strip()` truthiness: the source holds at least one
non-whitespace character. -/
def hasContent (s : String) : Bool :=
  s.toList.any (fun c => !c.isWhitespace)

/-- The `code_cells` collection of `ExecuteAllCellsTool.execute`: the
indexed code cells whose joined source is non-empty after stripping. -/
def collectCodeCells (nb : List Cell) : List (Nat × String) :=
  nb.enum.filterMap
    (fun p => if p.2.cellType = "code" ∧ hasContent p.2.source = true then some (p.1, p.2.source) else none)

/-- The registration step of `ExecuteAllCellsTool.execute`: refuse (error
envelope, nothing registered) when no non-empty code cell exists, else
register a fresh running entry with `total_cells = len(code_cells)`. -/
def executeAllStart (nb : List Cell) : Option BatchState :=
  let cells := collectCodeCells nb
  if cells.isEmpty then none else some (initBatchState cells.length)

/-- The progress computation of `CheckAllCellsStatusTool.execute`
(`int(completed / total * 100)`, modelled as natural floor division). -/
def progressPercent (completed total : Nat) : Nat :=
  completed * 100 / total

/-- The `progress_percent` the status poll reports for an entry: 100 for a
completed run, else computed from the counters. -/
def checkAllCellsProgress (st : BatchState) : Nat :=
  if st.status = "completed" then 100
  else progressPercent st.completedCells st.totalCells

/-! ## Frontend delegation (frontend_delegation.py, frontend_delegated.py)

The `_pending_requests` dict is modelled as an association list from
request id to the future's state; a future here is just its `done` flag
(the delivered payload travels in the function results).
-/

/-- The state of one `asyncio.Future` in `_pending_requests`. -/
structure DFuture where
  done : Bool
deriving DecidableEq

/-- The `_pending_requests` registry. -/
abbrev PendingMap := List (String × DFuture)

/-- Dict membership lookup (`request_id in _pending_requests`). -/
def pendingLookup : PendingMap → String → Option DFuture
  | [], _ => none
  | (k, f) :: rest, id => if k = id then some f else pendingLookup rest id

/-- Dict removal (`_pending_requests.pop(request_id, None)`). -/
def pendingRemove : PendingMap → String → PendingMap
  | [], _ => []
  | (k, f) :: rest, id =>
      if k = id then pendingRemove rest id else (k, f) :: pendingRemove rest id

/-- What a `handle_tool_response` call did: resolved the future, dropped
the response because the popped future was already done, or logged an
unknown-request warning and dropped it. -/
inductive DeliverAction where
  | resolved (id : String)
  | droppedDone (id : String)
  | droppedUnknown (id : String)
deriving DecidableEq

/-- `handle_tool_response`: if the id is pending, pop it and call
`set_result` only when the future is not yet done; otherwise log a
warning and ignore. It never raises and never resolves a future twice. -/
def handleToolResponse (p : PendingMap) (id : String) : PendingMap × DeliverAction :=
  match pendingLookup p id with
  | some fut =>
      let p' := pendingRemove p id
      if fut.done then (p', .droppedDone id) else (p', .resolved id)
  | none => (p, .droppedUnknown id)

/-- The awaited fate of one delegation: the frontend's result envelope
arrived in time, `asyncio.wait_for` timed out, or some other exception
occurred while sending or waiting. -/
inductive AwaitOutcome where
  | response (env : ToolEnvelope)
  | timedOut
  | failed (msg : String)
deriving DecidableEq

/-- `delegate_to_frontend`: with no active WebSocket it raises
`RuntimeError` before registering anything; otherwise it registers a
pending future under the fresh id, sends the request, and awaits. A
response resolves through `handle_tool_response` (which pops the entry);
a timeout or other exception pops the entry and returns a structured
failure envelope instead of raising. -/
def delegateToFrontend (peer : Bool) (p : PendingMap) (reqId toolName : String)
    (outcome : AwaitOutcome) : PendingMap × Except String ToolEnvelope :=
  if peer = false then
    (p, .error "No active WebSocket connection for frontend delegation")
  else
    let p₁ := (reqId, { done := false }) :: p
    match outcome with
    | .response env => ((handleToolResponse p₁ reqId).1, .ok env)
    | .timedOut =>
        (pendingRemove p₁ reqId,
         .ok { success := false, error := some ("Timeout waiting for frontend to execute " ++ toolName) })
    | .failed msg =>
        (pendingRemove p₁ reqId, .ok { success := false, error := some msg })

/-- `FrontendDelegatedTool.execute`: call `delegate_to_frontend` and turn
any exception (including the no-active-WebSocket `RuntimeError`) into a
failure envelope for the caller. -/
def frontendDelegatedExecute (peer : Bool) (p : PendingMap) (reqId toolName : String)
    (outcome : AwaitOutcome) : PendingMap × ToolEnvelope :=
  match delegateToFrontend peer p reqId toolName outcome with
  | (p', .ok env) => (p', env)
  | (p', .error msg) =>
      (p', { success := false, error := some ("Frontend delegation failed: " ++ msg) })

/-! ## Per-notebook client manager (client_manager.py)

Client objects are modelled by opaque natural handles drawn from a fresh
allocator, so that the distinct-object identity of a newly constructed
`ClaudeSDKClient` is visible; the `_options` dict, which only mirrors the
keys of `_clients`, is elided.
-/

/-- Association-list lookup for string-keyed dicts with Nat values. -/
def assocLookup : List (String × Nat) → String → Option Nat
  | [], _ => none
  | (k, v) :: rest, key => if k = key then some v else assocLookup rest key

/-- Dict assignment `d[key] = v` (replace the binding or append it). -/
def assocSet : List (String × Nat) → String → Nat → List (String × Nat)
  | [], key, v => [(key, v)]
  | (k, w) :: rest, key, v =>
      if k = key then (key, v) :: rest else (k, w) :: assocSet rest key v

/-- Dict deletion `del d[key]`. -/
def assocRemove : List (String × Nat) → String → List (String × Nat)
  | [], _ => []
  | (k, w) :: rest, key =>
      if k = key then assocRemove rest key else (k, w) :: assocRemove rest key

/-- The `ClaudeClientManager` state: `_clients`, `_last_access`, and a
fresh-handle allocator standing for object construction. -/
structure ManagerState where
  clients : List (String × Nat)
  lastAccess : List (String × Nat)
  nextHandle : Nat
deriving DecidableEq

/-- Every stored client handle was allocated before the next fresh one —
the allocator invariant of the handle model (holds for the empty manager
and is preserved by every operation). -/
def handlesFresh (st : ManagerState) : Prop :=
  ∀ pair ∈ st.clients, pair.2 < st.nextHandle

/-- `ClaudeClientManager.get_or_create_client`: stamp `_last_access`, then
return the stored client if the key is present, else construct, connect
and store a new one. -/
def getOrCreateClient (st : ManagerState) (path : String) (now : Nat) : ManagerState × Nat :=
  let st₁ := { st with lastAccess := assocSet st.lastAccess path now }
  match assocLookup st₁.clients path with
  | some h => (st₁, h)
  | none =>
      let h := st₁.nextHandle
      ({ st₁ with clients := assocSet st₁.clients path h, nextHandle := h + 1 }, h)

/-- `ClaudeClientManager.close_client`: if the key is present, disconnect
(failures logged and absorbed) and delete all its entries. -/
def closeClient (st : ManagerState) (path : String) : ManagerState :=
  match assocLookup st.clients path with
  | some _ =>
      { st with clients := assocRemove st.clients path,
                lastAccess := assocRemove st.lastAccess path }
  | none => st

/-- `ClaudeClientManager.reset_client`: close the client when one exists
for the notebook, discarding its conversation state. -/
def resetClient (st : ManagerState) (path : String) : ManagerState :=
  match assocLookup st.clients path with
  | some _ => closeClient st path
  | none => st

/-! ## Async execution tracker (execute_cell_async.py, check_execution_status.py)

`str(uuid.uuid4())` is modelled as an injective fresh supply of opaque
ids (naturals rendered into the id string), which captures that two
generated ids are distinct regardless of when they are drawn.
-/

/-- The `_async_executions` registry plus the fresh uuid supply. -/
structure TrackerState where
  executions : List (Nat × AsyncEntry)
  nextUuid : Nat
deriving DecidableEq

/-- Registry lookup (`execution_id in _async_executions`). -/
def entryLookup : List (Nat × AsyncEntry) → Nat → Option AsyncEntry
  | [], _ => none
  | (k, e) :: rest, id => if k = id then some e else entryLookup rest id

/-- The registration step of `ExecuteCellAsyncTool.execute` after
validation: draw a fresh execution id, register a `"running"` entry, and
return the id immediately. -/
def startAsyncExecution (st : TrackerState) (cellIndex : Nat) : TrackerState × Nat :=
  let id := st.nextUuid
  ({ executions := (id, initAsyncEntry cellIndex) :: st.executions,
     nextUuid := st.nextUuid + 1 }, id)

/-- The status poll result (`success`, `error`, and the snapshot's status
field when found). -/
structure StatusResult where
  success : Bool
  error : Option String
  status : Option String
deriving DecidableEq

/-- `CheckExecutionStatusTool.execute`: an unknown id yields the
unsuccessful envelope naming the id; a known id yields a successful
snapshot. -/
def checkExecutionStatus (st : TrackerState) (id : Nat) : StatusResult :=
  match entryLookup st.executions id with
  | none =>
      { success := false,
        error := some ("Execution ID '" ++ toString id ++ "' not found"),
        status := none }
  | some e => { success := true, error := none, status := some e.status }

/-! ## Supporting lemmas -/

/-- Concatenation of the routed outputs of a message list (arrival order). -/
def routeAll : List IOPubMsg → List Output
  | [] => []
  | m :: rest => routeMsg m ++ routeAll rest

theorem pendingLookup_remove_self (p : PendingMap) (id : String) :
    pendingLookup (pendingRemove p id) id = none := by
  induction p with
  | nil => rfl
  | cons e rest ih =>
    obtain ⟨k, f⟩ := e
    by_cases h : k = id
    · simpa [pendingRemove, h] using ih
    · simpa [pendingRemove, pendingLookup, h] using ih

theorem handleToolResponse_fst (p : PendingMap) (id : String) (fut : DFuture)
    (h : pendingLookup p id = some fut) :
    (handleToolResponse p id).1 = pendingRemove p id := by
  cases hd : fut.done <;> simp [handleToolResponse, h, hd]

theorem assocLookup_set_self (m : List (String × Nat)) (k : String) (v : Nat) :
    assocLookup (assocSet m k v) k = some v := by
  induction m with
  | nil => simp [assocSet, assocLookup]
  | cons e rest ih =>
    obtain ⟨k', w⟩ := e
    by_cases h : k' = k
    · simp [assocSet, h, assocLookup]
    · simp [assocSet, assocLookup, h, ih]

theorem assocLookup_remove_self (m : List (String × Nat)) (k : String) :
    assocLookup (assocRemove m k) k = none := by
  induction m with
  | nil => rfl
  | cons e rest ih =>
    obtain ⟨k', w⟩ := e
    by_cases h : k' = k
    · simpa [assocRemove, h] using ih
    · simpa [assocRemove, assocLookup, h] using ih

theorem assocLookup_mem (m : List (String × Nat)) (k : String) (v : Nat)
    (h : assocLookup m k = some v) : (k, v) ∈ m := by
  induction m with
  | nil => simp [assocLookup] at h
  | cons e rest ih =>
    obtain ⟨k', w⟩ := e
    by_cases hk : k' = k
    · subst hk
      simp [assocLookup] at h
      simp [h]
    · simp [assocLookup, hk] at h
      exact List.mem_cons_of_mem _ (ih h)

theorem runBatchUnits_totalCells (units : List (Nat × UnitOutcome)) (nb : List Cell)
    (st : BatchState) : (runBatchUnits units nb st).2.1.totalCells = st.totalCells := by
  induction units generalizing nb st with
  | nil => simp [runBatchUnits]
  | cons u rest ih =>
    obtain ⟨idx, outcome⟩ := u
    cases outcome with
    | exn msg => simp [runBatchUnits]
    | ok outs =>
      simp only [runBatchUnits]
      by_cases h : outs.any Output.isError
      · simp [h]
      · simp only [h, Bool.false_eq_true, if_false]
        exact ih _ _

theorem runBatchUnits_completed_le (units : List (Nat × UnitOutcome)) (nb : List Cell)
    (st : BatchState) :
    (runBatchUnits units nb st).2.1.completedCells ≤ st.completedCells + units.length := by
  induction units generalizing nb st with
  | nil => simp [runBatchUnits]
  | cons u rest ih =>
    obtain ⟨idx, outcome⟩ := u
    cases outcome with
    | exn msg => simp [runBatchUnits]
    | ok outs =>
      simp only [runBatchUnits]
      by_cases h : outs.any Output.isError
      · simp [h]
      · simp only [h, Bool.false_eq_true, if_false, List.length_cons]
        refine le_trans (ih _ _) ?_
        simp
        omega

theorem progressPercent_le_100 (c t : Nat) (h1 : c ≤ t) (_ht : 1 ≤ t) :
    progressPercent c t ≤ 100 := by
  unfold progressPercent
  exact Nat.div_le_of_le_mul' (Nat.mul_le_mul_right 100 h1)

theorem asyncTrace_cons (msg : IOPubMsg) (rest : List IOPubMsg) (n : Nat) :
    asyncTrace (msg :: rest) n = KernelEvent.iopub true msg :: asyncTrace rest n := by
  simp [asyncTrace]

theorem pollLoopAsync_asyncTrace (msgs : List IOPubMsg) (n : Nat) (outs : List Output)
    (cnt : Option Nat) (done : Bool) :
    ∃ m, pollLoopAsync (asyncTrace msgs n) outs cnt done = .ok (m, outs ++ routeAll msgs) := by
  induction msgs generalizing outs cnt done with
  | nil =>
    cases cnt with
    | none => exact ⟨n, by simp [asyncTrace, pollLoopAsync, finalizeAsync, routeAll]⟩
    | some a => exact ⟨a, by simp [asyncTrace, pollLoopAsync, finalizeAsync, routeAll]⟩
  | cons msg rest ih =>
    rw [asyncTrace_cons]
    obtain ⟨m, hm⟩ := ih (outs ++ routeMsg msg) (cnt <|> msgSeq msg) done
    refine ⟨m, ?_⟩
    simp only [pollLoopAsync, if_pos rfl, hm, routeAll, List.append_assoc]
    simp

theorem filter_isError_routeAll (msgs : List IOPubMsg) :
    (routeAll msgs).filter Output.isError = (msgs.filter IOPubMsg.isError).map errToOutput := by
  induction msgs with
  | nil => rfl
  | cons m rest ih =>
    cases m <;>
      simp [routeAll, routeMsg, List.filter_append, List.filter_cons,
            Output.isError, IOPubMsg.isError, errToOutput, ih]

theorem trace_errToOutput (m : IOPubMsg) (h : m.isError = true) :
    (errToOutput m).trace = m.tracebackOf := by
  cases m <;> simp_all [IOPubMsg.isError, errToOutput, Output.trace, IOPubMsg.tracebackOf]

/-! ## Concrete fixtures -/

/-- A one-cell notebook whose code cell has not been executed yet. -/
def nbOne : List Cell :=
  [{ cellType := "code", source := "1+1", executionCount := none, outputs := [] }]

/-- A kernel interaction whose shell reply carries execution counter 7 and
produces no outputs. -/
def trSeq7 : List KernelEvent :=
  [KernelEvent.shellReply true (some 7), KernelEvent.graceExpired]

/-- A kernel that sends one matching partial stream output and then never
replies before the deadline passes. -/
def trPartialTimeout : List KernelEvent :=
  [KernelEvent.iopub true (IOPubMsg.stream "stdout" "partial out"), KernelEvent.timeoutExpired]

/-- A kernel interaction for a cell that raised: one matching error
message with a non-empty traceback, then the reply (counter 5). -/
def raisingTrace : List KernelEvent :=
  asyncTrace [IOPubMsg.error "ZeroDivisionError" "division by zero" ["Traceback line"]] 5

/-! ## Claim theorems -/

/-- C1: the claim says every execution-counter write-back uses the
kernel-supplied counter and never computes it locally. The sync path does
(first conjunct: the reply's counter 7 is written), but the batch path of
`_execute_all_async` writes `max(existing)+1` computed from the notebook —
here 1, ignoring the kernel's 7 carried by the very same reply (its
collector `pollLoopAll` never even reads a counter). -/
theorem claim1_batch_counter_is_local :
    (executeCellRun 300 nbOne 0 trSeq7).1 =
      [{ cellType := "code", source := "1+1", executionCount := some 7, outputs := [] }] ∧
    updateCellBatch nbOne 0 (pollLoopAll trSeq7 [] false) =
      [{ cellType := "code", source := "1+1", executionCount := some 1, outputs := [] }] ∧
    (1 : Nat) ≠ 7 := by
  refine ⟨rfl, rfl, by decide⟩

/-- C2: over four units of which the first two succeed, the third fails
with an error output and a fourth follows, the batch ends with
`completed_cells = 3`, `failed_cell_index` at the third unit, status
`"error"`, and exactly the first three units submitted to the kernel. -/
theorem claim2_batch_fail_fast (i0 i1 i2 i3 : Nat) (o0 o1 o2 : List Output)
    (u3 : UnitOutcome) (nb : List Cell)
    (h0 : o0.any Output.isError = false) (h1 : o1.any Output.isError = false)
    (h2 : o2.any Output.isError = true) :
    (runBatchUnits [(i0, .ok o0), (i1, .ok o1), (i2, .ok o2), (i3, u3)] nb
        (initBatchState 4)).2.1.completedCells = 3 ∧
    (runBatchUnits [(i0, .ok o0), (i1, .ok o1), (i2, .ok o2), (i3, u3)] nb
        (initBatchState 4)).2.1.failedCellIndex = some i2 ∧
    (runBatchUnits [(i0, .ok o0), (i1, .ok o1), (i2, .ok o2), (i3, u3)] nb
        (initBatchState 4)).2.1.status = "error" ∧
    (runBatchUnits [(i0, .ok o0), (i1, .ok o1), (i2, .ok o2), (i3, u3)] nb
        (initBatchState 4)).2.2 = [i0, i1, i2] := by
  simp [runBatchUnits, h0, h1, h2, initBatchState]

/-- C2 witness at the concrete scenario `[ok, ok, fails, ok]` on cell
indices 0..3 (so the recorded failure index is 2). -/
theorem claim2_batch_fail_fast_witness :
    (([] : List Output).any Output.isError = false ∧
     ([Output.error "E" "v" ["t"]].any Output.isError = true)) ∧
    ((runBatchUnits [(0, .ok []), (1, .ok []), (2, .ok [Output.error "E" "v" ["t"]]), (3, .ok [])]
        nbOne (initBatchState 4)).2.1.completedCells = 3 ∧
     (runBatchUnits [(0, .ok []), (1, .ok []), (2, .ok [Output.error "E" "v" ["t"]]), (3, .ok [])]
        nbOne (initBatchState 4)).2.1.failedCellIndex = some 2 ∧
     (runBatchUnits [(0, .ok []), (1, .ok []), (2, .ok [Output.error "E" "v" ["t"]]), (3, .ok [])]
        nbOne (initBatchState 4)).2.1.status = "error" ∧
     (runBatchUnits [(0, .ok []), (1, .ok []), (2, .ok [Output.error "E" "v" ["t"]]), (3, .ok [])]
        nbOne (initBatchState 4)).2.2 = [0, 1, 2]) :=
  ⟨⟨by decide, by decide⟩,
   claim2_batch_fail_fast 0 1 2 3 [] [] [Output.error "E" "v" ["t"]] (.ok []) nbOne
     (by decide) (by decide) (by decide)⟩

/-- C3: the claim says a never-replying kernel yields a Timeout-status
result carrying all partial outputs. Instead the timeout branch returns a
bare one-element list that drops the captured partial stream output, and
the caller's tuple unpack of that list raises, so the tool answers a
generic error envelope with nothing written back. -/
theorem claim3_timeout_drops_partial_outputs :
    pollLoopSync 5 trPartialTimeout [] none false = .bareList [timeoutOutput 5] ∧
    (executeCellRun 5 nbOne 0 trPartialTimeout).2 =
      { success := false, error := some "not enough values to unpack (expected 2, got 1)" } ∧
    Output.stream "stdout" "partial out" ∉ [timeoutOutput 5] := by
  refine ⟨rfl, rfl, by decide⟩

/-- C4 counterexample: a cell that raised (one error output collected,
reply received) leaves the async execution in status `"completed"`, so
the claim's "does not end in the Completed state" is false on the code. -/
theorem claim4_counterexample :
    (executeAsyncTask raisingTrace nbOne (initAsyncEntry 0)).2.status = "completed" ∧
    (executeAsyncTask raisingTrace nbOne (initAsyncEntry 0)).2.outputs.any Output.isError = true := by
  refine ⟨rfl, rfl⟩

/-- C4 amended: for an execution whose kernel interaction carries exactly
one error message (with non-empty traceback) and a reply, the recorded
outputs contain exactly one error output with a non-empty traceback and
the failure is data, not a transport error (the entry's `error` field
stays empty) — but the async execution ends in status `"completed"`, not
in an Error state. -/
theorem claim4_error_is_data (msgs : List IOPubMsg) (n : Nat) (nb : List Cell) (i : Nat)
    (h1 : (msgs.filter IOPubMsg.isError).length = 1)
    (h2 : ∀ m ∈ msgs, m.isError = true → m.tracebackOf ≠ []) :
    (executeAsyncTask (asyncTrace msgs n) nb (initAsyncEntry i)).2.status = "completed" ∧
    (executeAsyncTask (asyncTrace msgs n) nb (initAsyncEntry i)).2.error = none ∧
    ((executeAsyncTask (asyncTrace msgs n) nb (initAsyncEntry i)).2.outputs.filter
        Output.isError).length = 1 ∧
    ∀ o ∈ (executeAsyncTask (asyncTrace msgs n) nb (initAsyncEntry i)).2.outputs.filter
        Output.isError, o.trace ≠ [] := by
  obtain ⟨m, hm⟩ := pollLoopAsync_asyncTrace msgs n [] none false
  have hout : (executeAsyncTask (asyncTrace msgs n) nb (initAsyncEntry i)).2.outputs = routeAll msgs := by
    simp [executeAsyncTask, hm]
  have hst : (executeAsyncTask (asyncTrace msgs n) nb (initAsyncEntry i)).2.status = "completed" := by
    simp [executeAsyncTask, hm]
  have herr : (executeAsyncTask (asyncTrace msgs n) nb (initAsyncEntry i)).2.error = none := by
    simp [executeAsyncTask, hm, initAsyncEntry]
  refine ⟨hst, herr, ?_, ?_⟩
  · rw [hout, filter_isError_routeAll, List.length_map]
    exact h1
  · intro o ho
    rw [hout, filter_isError_routeAll] at ho
    obtain ⟨msg, hmem, rfl⟩ := List.mem_map.mp ho
    have hmsg := List.mem_filter.mp hmem
    rw [trace_errToOutput msg hmsg.2]
    exact h2 msg hmsg.1 hmsg.2

/-- C4 witness: one raising cell, counter 1, empty notebook. -/
theorem claim4_error_is_data_witness :
    ((([IOPubMsg.error "E" "v" ["t"]].filter IOPubMsg.isError).length = 1) ∧
     (∀ m ∈ [IOPubMsg.error "E" "v" ["t"]], m.isError = true → m.tracebackOf ≠ [])) ∧
    ((executeAsyncTask (asyncTrace [IOPubMsg.error "E" "v" ["t"]] 1) [] (initAsyncEntry 0)).2.status = "completed" ∧
     (executeAsyncTask (asyncTrace [IOPubMsg.error "E" "v" ["t"]] 1) [] (initAsyncEntry 0)).2.error = none ∧
     ((executeAsyncTask (asyncTrace [IOPubMsg.error "E" "v" ["t"]] 1) [] (initAsyncEntry 0)).2.outputs.filter
         Output.isError).length = 1 ∧
     ∀ o ∈ (executeAsyncTask (asyncTrace [IOPubMsg.error "E" "v" ["t"]] 1) [] (initAsyncEntry 0)).2.outputs.filter
         Output.isError, o.trace ≠ []) :=
  ⟨⟨by decide, by decide⟩,
   claim4_error_is_data [IOPubMsg.error "E" "v" ["t"]] 1 [] 0 (by decide) (by decide)⟩

/-- C5: a pending delegation is resolved at most once. Resolving a
pending id removes it from the waiting set; a second deliver for the same
id is a logged no-op that drops the response (it cannot resolve again);
and a deliver for any id absent from the waiting set (already resolved,
already timed out, or never registered) leaves the set unchanged and
returns without raising. -/
theorem claim5_resolve_at_most_once (p : PendingMap) (id : String) (fut : DFuture)
    (h : pendingLookup p id = some fut) :
    pendingLookup (handleToolResponse p id).1 id = none ∧
    handleToolResponse (handleToolResponse p id).1 id =
      ((handleToolResponse p id).1, .droppedUnknown id) ∧
    ∀ q : PendingMap, pendingLookup q id = none →
      handleToolResponse q id = (q, .droppedUnknown id) := by
  have habs : ∀ q : PendingMap, pendingLookup q id = none →
      handleToolResponse q id = (q, .droppedUnknown id) := by
    intro q hq
    simp [handleToolResponse, hq]
  have h1 : pendingLookup (handleToolResponse p id).1 id = none := by
    rw [handleToolResponse_fst p id fut h]
    exact pendingLookup_remove_self p id
  exact ⟨h1, habs _ h1, habs⟩

/-- C5 witness: one pending entry, delivered twice. -/
theorem claim5_resolve_at_most_once_witness :
    (pendingLookup [("a", { done := false })] "a" = some { done := false }) ∧
    (pendingLookup (handleToolResponse [("a", { done := false })] "a").1 "a" = none ∧
     handleToolResponse (handleToolResponse [("a", { done := false })] "a").1 "a" =
       ((handleToolResponse [("a", { done := false })] "a").1, .droppedUnknown "a") ∧
     ∀ q : PendingMap, pendingLookup q "a" = none →
       handleToolResponse q "a" = (q, .droppedUnknown "a")) :=
  ⟨by decide, claim5_resolve_at_most_once [("a", { done := false })] "a" { done := false } (by decide)⟩

/-- C6: a delegation whose response never arrives within the timeout
removes its pending entry and returns a structured failure envelope
(`success = false` with the timeout message) through the normal return
path — no exception crosses the call boundary. -/
theorem claim6_timeout_returns_structured_failure (p : PendingMap) (reqId toolName : String) :
    (delegateToFrontend true p reqId toolName .timedOut).2 =
      .ok { success := false,
            error := some ("Timeout waiting for frontend to execute " ++ toolName) } ∧
    pendingLookup (delegateToFrontend true p reqId toolName .timedOut).1 reqId = none := by
  constructor
  · rfl
  · simp only [delegateToFrontend]
    simp only [Bool.true_eq_false, if_false]
    exact pendingLookup_remove_self _ _

/-- C7: a delegation issued with no peer channel attached fails
immediately through the tool boundary with the no-active-peer failure
envelope, registers no pending entry, and performs no retry — the
pending set is returned unchanged for every awaited outcome. -/
theorem claim7_no_peer_fails_immediately (p : PendingMap) (reqId toolName : String)
    (outcome : AwaitOutcome) :
    frontendDelegatedExecute false p reqId toolName outcome =
      (p, { success := false,
            error := some "Frontend delegation failed: No active WebSocket connection for frontend delegation" }) := by
  rfl

/-- C8: for a manager whose stored handles are all previously allocated,
two `get_or_create_client` calls for the same key with no intervening
reset return the same handle (the second call stores nothing new), and
after `reset_client` the next call returns a freshly allocated handle
distinct from the old one. -/
theorem claim8_session_reuse_and_reset (st : ManagerState) (path : String) (t₁ t₂ t₃ : Nat)
    (hf : handlesFresh st) :
    (getOrCreateClient (getOrCreateClient st path t₁).1 path t₂).2 =
      (getOrCreateClient st path t₁).2 ∧
    (getOrCreateClient (getOrCreateClient st path t₁).1 path t₂).1.clients =
      (getOrCreateClient st path t₁).1.clients ∧
    (getOrCreateClient
        (resetClient (getOrCreateClient (getOrCreateClient st path t₁).1 path t₂).1 path)
        path t₃).2 ≠ (getOrCreateClient st path t₁).2 := by
  cases hc : assocLookup st.clients path with
  | some h =>
    have hlt : h < st.nextHandle := hf _ (assocLookup_mem _ _ _ hc)
    have e₁ : getOrCreateClient st path t₁ =
        ({ st with lastAccess := assocSet st.lastAccess path t₁ }, h) := by
      simp [getOrCreateClient, hc]
    rw [e₁]
    have e₂ : getOrCreateClient { st with lastAccess := assocSet st.lastAccess path t₁ } path t₂ =
        ({ st with lastAccess := assocSet (assocSet st.lastAccess path t₁) path t₂ }, h) := by
      simp [getOrCreateClient, hc]
    rw [e₂]
    refine ⟨rfl, rfl, ?_⟩
    have e₃ : resetClient { st with lastAccess := assocSet (assocSet st.lastAccess path t₁) path t₂ } path =
        { st with clients := assocRemove st.clients path,
                  lastAccess := assocRemove (assocSet (assocSet st.lastAccess path t₁) path t₂) path } := by
      simp [resetClient, closeClient, hc]
    rw [e₃]
    have e₄ : assocLookup (assocRemove st.clients path) path = none :=
      assocLookup_remove_self _ _
    simp [getOrCreateClient, e₄]
    omega
  | none =>
    have e₁ : getOrCreateClient st path t₁ =
        ({ st with lastAccess := assocSet st.lastAccess path t₁,
                   clients := assocSet st.clients path st.nextHandle,
                   nextHandle := st.nextHandle + 1 }, st.nextHandle) := by
      simp [getOrCreateClient, hc]
    rw [e₁]
    have hlk : assocLookup (assocSet st.clients path st.nextHandle) path = some st.nextHandle :=
      assocLookup_set_self _ _ _
    have e₂ : getOrCreateClient
        { st with lastAccess := assocSet st.lastAccess path t₁,
                  clients := assocSet st.clients path st.nextHandle,
                  nextHandle := st.nextHandle + 1 } path t₂ =
        ({ st with lastAccess := assocSet (assocSet st.lastAccess path t₁) path t₂,
                   clients := assocSet st.clients path st.nextHandle,
                   nextHandle := st.nextHandle + 1 }, st.nextHandle) := by
      simp [getOrCreateClient, hlk]
    rw [e₂]
    refine ⟨rfl, rfl, ?_⟩
    have e₃ : resetClient
        { st with lastAccess := assocSet (assocSet st.lastAccess path t₁) path t₂,
                  clients := assocSet st.clients path st.nextHandle,
                  nextHandle := st.nextHandle + 1 } path =
        { st with lastAccess := assocRemove (assocSet (assocSet st.lastAccess path t₁) path t₂) path,
                  clients := assocRemove (assocSet st.clients path st.nextHandle) path,
                  nextHandle := st.nextHandle + 1 } := by
      simp [resetClient, closeClient, hlk]
    rw [e₃]
    have e₄ : assocLookup (assocRemove (assocSet st.clients path st.nextHandle) path) path = none :=
      assocLookup_remove_self _ _
    simp [getOrCreateClient, e₄]

/-- C8 witness: empty manager, one key, fresh allocator at 0 (the first
two calls both return handle 0, the post-reset call returns handle 1). -/
theorem claim8_session_reuse_and_reset_witness :
    handlesFresh { clients := [], lastAccess := [], nextHandle := 0 } ∧
    ((getOrCreateClient (getOrCreateClient { clients := [], lastAccess := [], nextHandle := 0 } "nb" 1).1 "nb" 2).2 =
       (getOrCreateClient { clients := [], lastAccess := [], nextHandle := 0 } "nb" 1).2 ∧
     (getOrCreateClient (getOrCreateClient { clients := [], lastAccess := [], nextHandle := 0 } "nb" 1).1 "nb" 2).1.clients =
       (getOrCreateClient { clients := [], lastAccess := [], nextHandle := 0 } "nb" 1).1.clients ∧
     (getOrCreateClient
         (resetClient (getOrCreateClient (getOrCreateClient { clients := [], lastAccess := [], nextHandle := 0 } "nb" 1).1 "nb" 2).1 "nb")
         "nb" 3).2 ≠ (getOrCreateClient { clients := [], lastAccess := [], nextHandle := 0 } "nb" 1).2) :=
  ⟨by intro pair hmem; simp at hmem,
   claim8_session_reuse_and_reset { clients := [], lastAccess := [], nextHandle := 0 } "nb" 1 2 3
     (by intro pair hmem; simp at hmem)⟩

/-- C9: two start calls on the tracker register two distinct execution
ids (the fresh supply advances between them), and polling an id that was
never registered answers the unsuccessful envelope that names the id. -/
theorem claim9_distinct_ids_and_unknown_poll (st : TrackerState) (i j id : Nat)
    (h : entryLookup st.executions id = none) :
    (startAsyncExecution st i).2 ≠ (startAsyncExecution (startAsyncExecution st i).1 j).2 ∧
    (checkExecutionStatus st id).success = false ∧
    (checkExecutionStatus st id).error =
      some ("Execution ID '" ++ toString id ++ "' not found") := by
  refine ⟨?_, ?_, ?_⟩
  · simp [startAsyncExecution]
  · simp [checkExecutionStatus, h]
  · simp [checkExecutionStatus, h]

/-- C9 witness: empty tracker, unknown id 5. -/
theorem claim9_distinct_ids_and_unknown_poll_witness :
    entryLookup ({ executions := [], nextUuid := 0 } : TrackerState).executions 5 = none ∧
    ((startAsyncExecution { executions := [], nextUuid := 0 } 0).2 ≠
       (startAsyncExecution (startAsyncExecution { executions := [], nextUuid := 0 } 0).1 1).2 ∧
     (checkExecutionStatus { executions := [], nextUuid := 0 } 5).success = false ∧
     (checkExecutionStatus { executions := [], nextUuid := 0 } 5).error =
       some ("Execution ID '" ++ toString 5 ++ "' not found")) :=
  ⟨by decide, claim9_distinct_ids_and_unknown_poll { executions := [], nextUuid := 0 } 0 1 5 (by decide)⟩

/-- C10: a batch registered by `execute_all_cells` always has
`total_cells ≥ 1` (registration refuses an empty code-cell list), the
batch loop never drives `completed_cells` past `total_cells`, and the
status poll's progress percentage stays within 0..100 — in particular
the division `completed_cells / total_cells` never divides by zero. -/
theorem claim10_progress_well_defined (nb ncb : List Cell) (st : BatchState)
    (behavior : Nat → String → UnitOutcome)
    (h : executeAllStart nb = some st) :
    1 ≤ st.totalCells ∧
    1 ≤ (runBatchUnits ((collectCodeCells nb).map (fun u => (u.1, behavior u.1 u.2))) ncb st).2.1.totalCells ∧
    (runBatchUnits ((collectCodeCells nb).map (fun u => (u.1, behavior u.1 u.2))) ncb st).2.1.completedCells ≤
      (runBatchUnits ((collectCodeCells nb).map (fun u => (u.1, behavior u.1 u.2))) ncb st).2.1.totalCells ∧
    checkAllCellsProgress
      (runBatchUnits ((collectCodeCells nb).map (fun u => (u.1, behavior u.1 u.2))) ncb st).2.1 ≤ 100 := by
  unfold executeAllStart at h
  by_cases hemp : (collectCodeCells nb).isEmpty
  · simp [hemp] at h
  · simp only [hemp, Bool.false_eq_true, if_false, Option.some.injEq] at h
    subst h
    have htot : 1 ≤ (initBatchState (collectCodeCells nb).length).totalCells := by
      simp [initBatchState]
      cases hcc : collectCodeCells nb with
      | nil => rw [hcc] at hemp; simp [List.isEmpty] at hemp
      | cons a l => simp [hcc]
    have hTC := runBatchUnits_totalCells
      ((collectCodeCells nb).map (fun u => (u.1, behavior u.1 u.2))) ncb
      (initBatchState (collectCodeCells nb).length)
    have hCC := runBatchUnits_completed_le
      ((collectCodeCells nb).map (fun u => (u.1, behavior u.1 u.2))) ncb
      (initBatchState (collectCodeCells nb).length)
    have hinit : (initBatchState (collectCodeCells nb).length).completedCells = 0 := rfl
    have hinitT : (initBatchState (collectCodeCells nb).length).totalCells =
        (collectCodeCells nb).length := rfl
    have hlen : ((collectCodeCells nb).map (fun u => (u.1, behavior u.1 u.2))).length =
        (collectCodeCells nb).length := List.length_map _ _
    have hle : (runBatchUnits ((collectCodeCells nb).map (fun u => (u.1, behavior u.1 u.2))) ncb
        (initBatchState (collectCodeCells nb).length)).2.1.completedCells ≤
        (runBatchUnits ((collectCodeCells nb).map (fun u => (u.1, behavior u.1 u.2))) ncb
        (initBatchState (collectCodeCells nb).length)).2.1.totalCells := by
      rw [hTC, hinitT]
      omega
    refine ⟨htot, ?_, hle, ?_⟩
    · rw [hTC]
      exact htot
    · unfold checkAllCellsProgress
      split
      · omega
      · exact progressPercent_le_100 _ _ hle (by rw [hTC]; exact htot)

/-- C10 witness: a one-cell notebook, every unit succeeding. -/
theorem claim10_progress_well_defined_witness :
    executeAllStart nbOne = some (initBatchState 1) ∧
    (1 ≤ (initBatchState 1).totalCells ∧
     1 ≤ (runBatchUnits ((collectCodeCells nbOne).map (fun u => (u.1, (fun _ _ => UnitOutcome.ok []) u.1 u.2))) nbOne (initBatchState 1)).2.1.totalCells ∧
     (runBatchUnits ((collectCodeCells nbOne).map (fun u => (u.1, (fun _ _ => UnitOutcome.ok []) u.1 u.2))) nbOne (initBatchState 1)).2.1.completedCells ≤
       (runBatchUnits ((collectCodeCells nbOne).map (fun u => (u.1, (fun _ _ => UnitOutcome.ok []) u.1 u.2))) nbOne (initBatchState 1)).2.1.totalCells ∧
     checkAllCellsProgress
       (runBatchUnits ((collectCodeCells nbOne).map (fun u => (u.1, (fun _ _ => UnitOutcome.ok []) u.1 u.2))) nbOne (initBatchState 1)).2.1 ≤ 100) :=
  ⟨by decide, claim10_progress_well_defined nbOne nbOne (initBatchState 1)
     (fun _ _ => UnitOutcome.ok []) (by decide)⟩

end TkAi
